import Mathlib

/-!
Formal model of the erdpy smart-contract transaction encoding layer
(`src/erdpy/contracts.py`), together with theorems checking the
specification's claims against it.

Modelling conventions:
* Python byte strings are `List Nat` (each entry one byte value).
* Python `str` is Lean `String`; the model covers ASCII text, which is the
  domain exercised by the encoding layer (`upper`, `isnumeric`, `int(s, b)`
  agree with Python on that domain).
* Fallible Python code (raising exceptions) is modelled with `Except` /
  `Option`.
* Machine integers do not appear: Python integers are unbounded, and the
  64-bit lanes inside Keccak are `Nat` reduced `% 2 ^ 64`.
-/

namespace Erdpy

/-- Error values raised by the modelled code: `errors.UnknownArgumentFormat`
(the spec calls it `MalformedArgument`) carries the offending text, and
`typeError` models Python's `TypeError` (e.g. `int(None)`). -/
inductive PyErr where
  | unknownArgumentFormat (argument : String)
  | typeError
deriving DecidableEq

/-! ## Character helpers (ASCII semantics of Python `str` methods) -/

/-- Scalar value of a character, `c.val.toNat`. -/
def charNat (c : Char) : Nat := c.toNat

/-- Uppercase table used by `pyUpperChar`. -/
def upperTable : List Char := "ABCDEFGHIJKLMNOPQRSTUVWXYZ".data

/-- Python `str.upper` on one ASCII character: `a`-`z` maps to `A`-`Z`,
everything else is unchanged. -/
def pyUpperChar (c : Char) : Char :=
  if 97 ≤ charNat c ∧ charNat c ≤ 122 then upperTable.getD (charNat c - 97) 'A' else c

/-- Python `str.upper` over a whole string (ASCII domain). -/
def pyUpper (s : String) : String := ⟨s.data.map pyUpperChar⟩

/-- ASCII decimal digit test; on ASCII text this is Python `str.isnumeric`
membership per character. -/
def isDigitChar (c : Char) : Bool := 48 ≤ charNat c && charNat c ≤ 57

/-- Hexadecimal digit test (`0`-`9`, `a`-`f`, `A`-`F`). -/
def isHexDigitChar (c : Char) : Bool :=
  (48 ≤ charNat c && charNat c ≤ 57) ||
  (97 ≤ charNat c && charNat c ≤ 102) ||
  (65 ≤ charNat c && charNat c ≤ 70)

/-- Numeric value of a hexadecimal digit (0 for non-digits; only applied to
digits in practice). -/
def hexDigitVal (c : Char) : Nat :=
  if 48 ≤ charNat c ∧ charNat c ≤ 57 then charNat c - 48
  else if 97 ≤ charNat c ∧ charNat c ≤ 102 then charNat c - 87
  else if 65 ≤ charNat c ∧ charNat c ≤ 70 then charNat c - 55
  else 0

/-- Python whitespace characters stripped by `int(s, base)` (ASCII range). -/
def pyWS (c : Char) : Bool :=
  charNat c = 32 || charNat c = 9 || charNat c = 10 ||
  charNat c = 13 || charNat c = 11 || charNat c = 12

/-- Lowercase hexadecimal digit characters, as produced by Python `hex()` and
`bytes.hex()`. -/
def hexTable : List Char := "0123456789abcdef".data

/-- The hexadecimal digit character for `n % 16` (lowercase). -/
def hexDigitChar (n : Nat) : Char := hexTable.getD (n % 16) '0'

/-- Decimal digit characters. -/
def decTable : List Char := "0123456789".data

/-- The decimal digit character for `n % 10`. -/
def decDigitChar (n : Nat) : Char := decTable.getD (n % 10) '0'

/-! ## Decimal and hexadecimal rendering of numbers

These model Python `str(n)` and `hex(n)[2:]` on non-negative integers:
minimal-length digit sequences, lowercase hex. -/

/-- Fuel-driven worker for `natToDecDigits` (structural recursion keeps it
kernel-reducible; any fuel above `n` computes the digits). -/
def natToDecAux (fuel : Nat) (n : Nat) : List Char :=
  match fuel with
  | 0 => []
  | fuel + 1 =>
    if n < 10 then [decDigitChar n]
    else natToDecAux fuel (n / 10) ++ [decDigitChar (n % 10)]

/-- Decimal digits of `n`, most significant first; models Python `str(n)` for
`n ≥ 0`. -/
def natToDecDigits (n : Nat) : List Char := natToDecAux (n + 1) n

/-- Python `str(n)` for a non-negative integer. -/
def natToDecStr (n : Nat) : String := ⟨natToDecDigits n⟩

/-- Fuel-driven worker for `natToHexDigits`. -/
def natToHexAux (fuel : Nat) (n : Nat) : List Char :=
  match fuel with
  | 0 => []
  | fuel + 1 =>
    if n < 16 then [hexDigitChar n]
    else natToHexAux fuel (n / 16) ++ [hexDigitChar (n % 16)]

/-- Hexadecimal digits of `n`, most significant first, lowercase; models
Python `hex(n)[2:]` for `n ≥ 0`. -/
def natToHexDigits (n : Nat) : List Char := natToHexAux (n + 1) n

/-- Python `hex(n)[2:]` as a string. -/
def natToHexStr (n : Nat) : String := ⟨natToHexDigits n⟩

/-- Python `str(i)` for an arbitrary integer: the decimal digits of the
absolute value, preceded by a minus sign when negative. -/
def intToDecChars (i : Int) : List Char :=
  match i with
  | .ofNat m => natToDecDigits m
  | .negSucc m => '-' :: natToDecDigits (m + 1)

/-- Value of a decimal digit string (fold; models `int(s)` on all-digit
text). -/
def decCharsVal (l : List Char) : Nat := l.foldl (fun a c => 10 * a + (charNat c - 48)) 0

/-- Value of a hexadecimal digit string read as an unsigned base-16 number. -/
def hexCharsVal (l : List Char) : Nat := l.foldl (fun a c => 16 * a + hexDigitVal c) 0

/-! ## Python `int(s, 16)`

CPython accepts optional surrounding whitespace, an optional sign, an
optional `0x`/`0X` prefix, and single underscores between hex digits (also
directly after the prefix).  `_prepare_hexadecimal` relies on exactly this
acceptance test, so it is modelled in full. -/

/-- Accepts a run of hex digits with single underscores between digits;
`allowUS` tells whether an underscore may occur right now (true after the
`0x` prefix or after a digit). -/
def usRun (allowUS : Bool) : List Char → Bool
  | [] => false
  | [c] => isHexDigitChar c
  | c :: rest =>
    if c = '_' then allowUS && usRun false rest
    else isHexDigitChar c && usRun true rest

/-- Strips one leading `+`/`-` sign, returning the sign as `1`/`-1`. -/
def stripSign : List Char → Int × List Char
  | [] => (1, [])
  | c :: t => if c = '+' then (1, t) else if c = '-' then (-1, t) else (1, c :: t)

/-- Strips a leading `0x`/`0X`, returning whether a prefix was present. -/
def stripHexPrefixTag : List Char → Bool × List Char
  | [] => (false, [])
  | [c] => (false, [c])
  | a :: b :: t => if a = '0' ∧ (b = 'x' ∨ b = 'X') then (true, t) else (false, a :: b :: t)

/-- Python `int(s, 16)` on ASCII text: `some v` when the text parses,
`none` when Python raises `ValueError`. -/
def pyIntBase16Chars? (l : List Char) : Option Int :=
  let l1 := ((l.dropWhile pyWS).reverse.dropWhile pyWS).reverse
  let sg := stripSign l1
  let core := stripHexPrefixTag sg.2
  if usRun core.1 core.2 then
    some (sg.1 * Int.ofNat (hexCharsVal (core.2.filter (fun c => c ≠ '_'))))
  else none

/-! ## Keccak-256

`SmartContract.compute_address` calls pycryptodome's
`keccak.new(digest_bits=256)`; this is the original Keccak (pad byte `0x01`,
rate 1088 bits), modelled here over `Nat` lanes reduced mod `2 ^ 64`. -/

/-- Modulus of a 64-bit lane. -/
def U64 : Nat := 2 ^ 64

/-- Left rotation of a 64-bit lane by `n` bits (`0 ≤ n < 64`). -/
def rotl64 (x n : Nat) : Nat := ((x <<< n) % U64) ||| (x >>> (64 - n))

/-- Round constants of Keccak-f[1600]. -/
def keccakRC : List Nat :=
  [0x1, 0x8082, 0x800000000000808a, 0x8000000080008000] ++
  [0x808b, 0x80000001, 0x8000000080008081, 0x8000000000008009] ++
  [0x8a, 0x88, 0x80008009, 0x8000000a] ++
  [0x8000808b, 0x800000000000008b, 0x8000000000008089, 0x8000000000008003] ++
  [0x8000000000008002, 0x8000000000000080, 0x800a, 0x800000008000000a] ++
  [0x8000000080008081, 0x8000000000008080, 0x80000001, 0x8000000080008008]

/-- Rotation offsets of the rho step, indexed by `x + 5 * y`. -/
def rotOffsets : List Nat :=
  [0, 1, 62, 28, 27] ++
  [36, 44, 6, 55, 20] ++
  [3, 10, 43, 25, 39] ++
  [41, 45, 15, 21, 8] ++
  [18, 2, 61, 56, 14]

/-- Theta step of Keccak-f. -/
def keccakTheta (s : List Nat) : List Nat :=
  let C := fun x => (s.getD x 0) ^^^ (s.getD (x + 5) 0) ^^^ (s.getD (x + 10) 0) ^^^
                    (s.getD (x + 15) 0) ^^^ (s.getD (x + 20) 0)
  let D := fun x => (C ((x + 4) % 5)) ^^^ rotl64 (C ((x + 1) % 5)) 1
  (List.range 25).map (fun i => (s.getD i 0) ^^^ D (i % 5))

/-- Combined rho and pi steps: destination lane `(X, Y)` receives the rotated
source lane `(x, y)` with `x = (X + 3 * Y) % 5`, `y = X`. -/
def keccakRhoPi (s : List Nat) : List Nat :=
  (List.range 25).map (fun i =>
    let X := i % 5
    let Y := i / 5
    let x := (X + 3 * Y) % 5
    let y := X
    rotl64 (s.getD (x + 5 * y) 0) (rotOffsets.getD (x + 5 * y) 0))

/-- Chi step of Keccak-f. -/
def keccakChi (s : List Nat) : List Nat :=
  (List.range 25).map (fun i =>
    let x := i % 5
    let y := i / 5
    (s.getD i 0) ^^^
      (((U64 - 1) ^^^ (s.getD ((x + 1) % 5 + 5 * y) 0)) &&& (s.getD ((x + 2) % 5 + 5 * y) 0)))

/-- One round of Keccak-f[1600] (theta, rho, pi, chi, iota). -/
def keccakRound (s : List Nat) (r : Nat) : List Nat :=
  let t := keccakChi (keccakRhoPi (keccakTheta s))
  t.set 0 ((t.getD 0 0) ^^^ keccakRC.getD r 0)

/-- The full 24-round Keccak-f[1600] permutation. -/
def keccakF (s : List Nat) : List Nat :=
  (List.range 24).foldl keccakRound s

/-- Little-endian byte list to number. -/
def leBytesToNat (bs : List Nat) : Nat := bs.foldr (fun b acc => b + 256 * acc) 0

/-- `i`-th 64-bit lane of a 136-byte rate block, little-endian. -/
def loadLane (block : List Nat) (i : Nat) : Nat := leBytesToNat ((block.drop (8 * i)).take 8)

/-- Absorbs one 136-byte block into the state and permutes. -/
def absorbBlock (s : List Nat) (block : List Nat) : List Nat :=
  keccakF ((List.range 25).map (fun i =>
    (s.getD i 0) ^^^ (if i < 17 then loadLane block i else 0)))

/-- Keccak `pad10*1` padding with domain byte `0x01` for a message of length
`len`, rate 136 bytes. -/
def keccakPad (len : Nat) : List Nat :=
  let q := 136 - len % 136
  if q = 1 then [0x81] else 0x01 :: (List.replicate (q - 2) 0 ++ [0x80])

/-- Fuel-driven worker for `chunk136` (the drop of a non-empty list strictly
shortens it, so any fuel above the length splits the whole list). -/
def chunk136Aux (fuel : Nat) (l : List Nat) : List (List Nat) :=
  match fuel with
  | 0 => []
  | fuel + 1 => if l = [] then [] else l.take 136 :: chunk136Aux fuel (l.drop 136)

/-- Splits a padded message into 136-byte rate blocks. -/
def chunk136 (l : List Nat) : List (List Nat) := chunk136Aux (l.length + 1) l

/-- Python `n.to_bytes(k, byteorder="little")` for `n < 2 ^ (8 * k)`. -/
def toLEBytes (k n : Nat) : List Nat := (List.range k).map (fun i => (n >>> (8 * i)) % 256)

/-- Keccak-256 digest (32 bytes) of a byte list; models
`keccak.new(digest_bits=256).update(m).digest()`. -/
def keccak256 (m : List Nat) : List Nat :=
  let padded := m ++ keccakPad m.length
  let final := (chunk136 padded).foldl absorbBlock (List.replicate 25 0)
  ((List.range 4).map (fun i => toLEBytes 8 (final.getD i 0))).flatten

/-! ## Hex rendering of byte strings (Python `bytes.hex()`) -/

/-- Two lowercase hex characters of one byte, models one step of
`bytes.hex()`. -/
def byteToHexChars (b : Nat) : List Char := [hexDigitChar (b / 16), hexDigitChar b]

/-- Characters of `bytes.hex()`. -/
def bytesToHexChars (bs : List Nat) : List Char := (bs.map byteToHexChars).flatten

/-- Python `bytes.hex()`: lowercase, two characters per byte. -/
def bytesToHexStr (bs : List Nat) : String := ⟨bytesToHexChars bs⟩

/-! ## Base64 decoding (Python `base64.b64decode` in default non-strict mode)

CPython's `binascii.a2b_base64` skips characters outside the alphabet,
treats `=` as terminating padding only once two or three sextets of the
current quad have been seen, and raises `binascii.Error` when leftover bits
remain at the end of input. -/

/-- Value of one base64 alphabet character. -/
def b64CharVal (c : Char) : Option Nat :=
  if 65 ≤ charNat c ∧ charNat c ≤ 90 then some (charNat c - 65)
  else if 97 ≤ charNat c ∧ charNat c ≤ 122 then some (charNat c - 97 + 26)
  else if 48 ≤ charNat c ∧ charNat c ≤ 57 then some (charNat c - 48 + 52)
  else if c = '+' then some 62
  else if c = '/' then some 63
  else none

/-- First character that is in the base64 alphabet or is `=`, if any
(CPython `binascii_find_valid`). -/
def b64FindValid (l : List Char) : Option Char :=
  l.find? (fun c => c = '=' || (b64CharVal c).isSome)

/-- Main decoding loop of `binascii.a2b_base64`.  `quadPos` counts sextets of
the current quad, `leftchar` holds the pending bits, `acc` the produced bytes
in reverse.  Returns `none` where CPython raises `binascii.Error`. -/
def a2bBase64 (l : List Char) (quadPos leftchar : Nat) (acc : List Nat) : Option (List Nat) :=
  match l with
  | [] => if quadPos = 0 then some acc.reverse else none
  | c :: rest =>
    if c = '=' then
      if quadPos < 2 then a2bBase64 rest quadPos leftchar acc
      else if quadPos = 2 ∧ b64FindValid rest ≠ some '=' then a2bBase64 rest quadPos leftchar acc
      else some acc.reverse
    else
      match b64CharVal c with
      | none => a2bBase64 rest quadPos leftchar acc
      | some v =>
        let w := leftchar * 64 + v
        if quadPos = 0 then a2bBase64 rest 1 v acc
        else if quadPos = 1 then a2bBase64 rest 2 (w % 16) ((w >>> 4) :: acc)
        else if quadPos = 2 then a2bBase64 rest 3 (w % 4) ((w >>> 2) :: acc)
        else a2bBase64 rest 0 0 ((w % 256) :: acc)

/-- Python `base64.b64decode` on a `str` argument: the text must be ASCII
(otherwise `str.encode("ascii")` raises), then `a2b_base64` decodes it. -/
def b64decode? (s : String) : Option (List Nat) :=
  if s.data.all (fun c => charNat c ≤ 127) then a2bBase64 s.data 0 0 [] else none

/-! ## The argument codec (`_prepare_argument` and helpers) -/

/-- An argument passed to the contract operations.  The source accepts
arbitrary values and works on `str(argument)`; the model covers the two
kinds the spec and the call sites use, integers and strings. -/
inductive Arg where
  | num (i : Int)
  | str (s : String)
deriving DecidableEq

/-- Python `str(argument)` for the modelled argument kinds. -/
def argStr : Arg → String
  | .num i => ⟨intToDecChars i⟩
  | .str s => s

/-- Source `ensure_even_length`: prepends one `0` when the length is odd. -/
def ensure_even_length (string : String) : String :=
  if string.data.length % 2 = 1 then ⟨'0' :: string.data⟩ else string

/-- Python `as_string.startswith("0X")` (the string has already been
uppercased by the caller). -/
def startsWith0X (s : String) : Bool :=
  match s.data with
  | a :: b :: _ => a = '0' && b = 'X'
  | _ => false

/-- Source `_prepare_hexadecimal`: strips the two-character `0X` prefix, pads
to even length, then keeps the text only when Python `int(·, 16)` accepts
it, raising `UnknownArgumentFormat` otherwise. -/
def prepare_hexadecimal (argument : String) : Except PyErr String :=
  let arg1 : String := ⟨argument.data.drop 2⟩
  let arg2 := ensure_even_length arg1
  match pyIntBase16Chars? arg2.data with
  | some _ => Except.ok arg2
  | none => Except.error (PyErr.unknownArgumentFormat arg2)

/-- Python `str.isnumeric` restricted to ASCII text: non-empty and all
decimal digits. -/
def pyIsNumeric (s : String) : Bool := !s.data.isEmpty && s.data.all isDigitChar

/-- Source `_prepare_decimal`: requires `isnumeric`, parses the decimal
value, renders it as `hex(n)[2:]` and pads to even length. -/
def prepare_decimal (argument : String) : Except PyErr String :=
  if pyIsNumeric argument then
    Except.ok (ensure_even_length (natToHexStr (decCharsVal argument.data)))
  else Except.error (PyErr.unknownArgumentFormat argument)

/-- Source `_prepare_argument`: uppercases `str(argument)` and dispatches on
the `0X` prefix. -/
def prepare_argument (a : Arg) : Except PyErr String :=
  let as_string := pyUpper (argStr a)
  if startsWith0X as_string then prepare_hexadecimal as_string
  else prepare_decimal as_string

/-! ## CodeMetadata -/

/-- Source `CodeMetadata`: the two deployment flags (defaults
`upgradeable = true`, `payable = false`). -/
structure CodeMetadata where
  upgradeable : Bool := true
  payable : Bool := false
deriving DecidableEq

/-- Source `CodeMetadata.to_hex`. -/
def CodeMetadata.to_hex (m : CodeMetadata) : String :=
  (if m.upgradeable then "01" else "00") ++ (if m.payable then "02" else "00")

/-! ## Collaborators that are not part of the sources

`erdpy.accounts`, `erdpy.config` and `erdpy.constants` are consumed by
`contracts.py` but are not among the source files, so the pieces the claims
need are modelled from the spec. -/

/-- Modelled from the spec: `constants.VM_TYPE_WASM_VM` is missing from the
sources.  The spec describes the deploy-data field as a fixed constant
identifying the WASM virtual machine, a 2-byte VM-type marker whose bytes
are `0x05, 0x00` in the address layout, i.e. hex `"0500"`. -/
def VM_TYPE_WASM_VM : String := "0500"

/-- Modelled from the spec: `config.DEFAULT_GAS_PRICE` is missing from the
sources; the spec only calls it "the configured default gas price", so it is
a fixed configured constant here. -/
def DEFAULT_GAS_PRICE : Nat := 1000000000

/-- Modelled from the spec: `Address.zero()` is missing from the sources;
the spec calls it the network zero address, the 32-byte all-zero value. -/
def zeroAddressBytes : List Nat := List.replicate 32 0

/-- Modelled from the spec: `Address.bech32()` is missing from the sources;
the spec describes it as the human-readable checksummed text encoding of the
32-byte value.  It is modelled as an injective textual rendering, the `erd1`
human-readable part followed by the hex of the bytes. -/
def bech32M (pubkey : List Nat) : String := "erd1" ++ bytesToHexStr pubkey

/-- Modelled from the spec: an `Account` collaborator carries its 32-byte
public key (`address.pubkey()`) and its current nonce. -/
structure Account where
  pubkey : List Nat
  nonce : Nat
deriving DecidableEq

/-! ## SmartContract and the transaction intents -/

/-- Source `SmartContract` state: address bytes, bytecode hex text and code
metadata. -/
structure SmartContract where
  address : List Nat
  bytecode : String
  metadata : CodeMetadata
deriving DecidableEq

/-- Source `Transaction` fields as assembled by deploy / execute / upgrade
(signing is delegated to the external signer collaborator and adds no
field the claims mention). -/
structure Transaction where
  nonce : Nat
  value : String
  sender : String
  receiver : String
  gasPrice : Nat
  gasLimit : Nat
  data : String
  chainID : String
  version : Nat
deriving DecidableEq

/-- Python `int(x)` on an optional integer: `int(None)` raises
`TypeError`. -/
def pyIntOfOption : Option Nat → Except PyErr Nat
  | none => Except.error PyErr.typeError
  | some g => Except.ok g

/-- Python `x or d` on an optional integer: `None` and `0` are falsy. -/
def pyOrDefault (g : Option Nat) (d : Nat) : Nat :=
  match g with
  | none => d
  | some 0 => d
  | some k => k

/-- Source `SmartContract.compute_address`: 8 zero bytes, the 2-byte VM-type
marker `0x05, 0x00`, bytes 10..30 of `keccak256(pubkey ++ nonce-LE8)`, then
bytes 30..32 of the owner public key. -/
def compute_address (owner_pubkey : List Nat) (owner_nonce : Nat) : List Nat :=
  let nonce_bytes := toLEBytes 8 owner_nonce
  let bytes_to_hash := owner_pubkey ++ nonce_bytes
  let digest := keccak256 bytes_to_hash
  List.replicate 8 0 ++ [5, 0] ++ ((digest.drop 10).take 20) ++ owner_pubkey.drop 30

/-- Source `SmartContract.prepare_deploy_transaction_data`:
`bytecode@vmType@metadata` followed by `@arg` for each encoded argument; an
encoding failure aborts the build. -/
def prepare_deploy_transaction_data (sc : SmartContract) (arguments : List Arg) :
    Except PyErr String := do
  let parts ← arguments.mapM prepare_argument
  return parts.foldl (fun acc p => acc ++ "@" ++ p)
    (sc.bytecode ++ "@" ++ VM_TYPE_WASM_VM ++ "@" ++ sc.metadata.to_hex)

/-- Source `SmartContract.prepare_execute_transaction_data`: the function
name followed by `@arg` for each encoded argument. -/
def prepare_execute_transaction_data (function : String) (arguments : List Arg) :
    Except PyErr String := do
  let parts ← arguments.mapM prepare_argument
  return parts.foldl (fun acc p => acc ++ "@" ++ p) function

/-- Source `SmartContract.prepare_upgrade_transaction_data`:
`upgradeContract@bytecode@metadata` followed by `@arg` for each encoded
argument. -/
def prepare_upgrade_transaction_data (sc : SmartContract) (arguments : List Arg) :
    Except PyErr String := do
  let parts ← arguments.mapM prepare_argument
  return parts.foldl (fun acc p => acc ++ "@" ++ p)
    ("upgradeContract@" ++ sc.bytecode ++ "@" ++ sc.metadata.to_hex)

/-- Source `SmartContract.deploy`: computes the contract address from the
owner's key and current nonce, converts `gas_price` with `int()` (so `None`
raises `TypeError`), builds the deploy data, and assembles the transaction
with the owner's nonce and the network zero address as receiver.  Returns
the transaction together with the contract state carrying the new
address. -/
def deploy (sc : SmartContract) (owner : Account) (arguments : List Arg)
    (gas_price : Option Nat) (gas_limit : Nat) (value : Nat)
    (chain : String) (version : Nat) : Except PyErr (Transaction × SmartContract) := do
  let contract_address := compute_address owner.pubkey owner.nonce
  let gp ← pyIntOfOption gas_price
  let data ← prepare_deploy_transaction_data sc arguments
  let tx : Transaction :=
    { nonce := owner.nonce
      value := natToDecStr value
      sender := bech32M owner.pubkey
      receiver := bech32M zeroAddressBytes
      gasPrice := gp
      gasLimit := gas_limit
      data := data
      chainID := chain
      version := version }
  return (tx, { sc with address := contract_address })

/-- Source `SmartContract.execute`: the receiver is the contract address and
`gas_price` goes through `int()` unchanged (no default substitution). -/
def execute (sc : SmartContract) (caller : Account) (function : String) (arguments : List Arg)
    (gas_price : Option Nat) (gas_limit : Nat) (value : Nat)
    (chain : String) (version : Nat) : Except PyErr Transaction := do
  let gp ← pyIntOfOption gas_price
  let data ← prepare_execute_transaction_data function arguments
  return { nonce := caller.nonce
           value := natToDecStr value
           sender := bech32M caller.pubkey
           receiver := bech32M sc.address
           gasPrice := gp
           gasLimit := gas_limit
           data := data
           chainID := chain
           version := version }

/-- Source `SmartContract.upgrade`: like `execute` towards the contract
address, but `gas_price` is `int(gas_price or config.DEFAULT_GAS_PRICE)`, so
a falsy value (`None` or `0`) is silently replaced by the configured
default. -/
def upgrade (sc : SmartContract) (owner : Account) (arguments : List Arg)
    (gas_price : Option Nat) (gas_limit : Nat) (value : Nat)
    (chain : String) (version : Nat) : Except PyErr Transaction := do
  let gp := pyOrDefault gas_price DEFAULT_GAS_PRICE
  let data ← prepare_upgrade_transaction_data sc arguments
  return { nonce := owner.nonce
           value := natToDecStr value
           sender := bech32M owner.pubkey
           receiver := bech32M sc.address
           gasPrice := gp
           gasLimit := gas_limit
           data := data
           chainID := chain
           version := version }

/-! ## Query return-value decoding -/

/-- Source `QueryResult`: the three parallel readings of one return value. -/
structure QueryResult where
  base64 : String
  hex : String
  number : Int
deriving DecidableEq

/-- Result of `_interpret_return_data` for one entry: falsy data is returned
unchanged (`raw`), a successfully decoded entry becomes a `QueryResult`, and
any exception is swallowed into Python `None` (modelled as `pyNone`) with
only a logged warning. -/
inductive InterpretedValue where
  | raw (s : String)
  | ok (q : QueryResult)
  | pyNone
deriving DecidableEq

/-- Source `SmartContract._interpret_return_data`. -/
def interpret_return_data (data : String) : InterpretedValue :=
  if data = "" then .raw data
  else
    match b64decode? data with
    | none => .pyNone
    | some as_bytes =>
      let as_hex := bytesToHexStr as_bytes
      match pyIntBase16Chars? as_hex.data with
      | none => .pyNone
      | some as_number => .ok ⟨data, as_hex, as_number⟩

/-- Source `SmartContract.query`, key handling: the response's return-data
list is `response_data.get("returnData", []) or response_data.get("ReturnData", [])`,
so a missing or empty lowercase key falls back to the capitalised one. -/
def effective_return_data (returnDataLower returnDataUpper : Option (List String)) :
    List String :=
  let first := returnDataLower.getD []
  if first.isEmpty then returnDataUpper.getD [] else first

/-- Source `SmartContract.query` after the proxy response arrived: every
return-data entry is interpreted independently. -/
def query_model (returnDataLower returnDataUpper : Option (List String)) :
    List InterpretedValue :=
  (effective_return_data returnDataLower returnDataUpper).map interpret_return_data

/-- Gas price of a built transaction, `none` when the build raised. -/
def exceptGasPrice : Except PyErr Transaction → Option Nat
  | .ok t => some t.gasPrice
  | .error _ => none

/-- Every transaction field except the `data` payload, `none` when the build
raised; used to compare how two code paths assemble a transaction. -/
def exceptFieldsNoData :
    Except PyErr Transaction → Option (Nat × String × String × String × Nat × Nat × String × Nat)
  | .ok t => some (t.nonce, t.value, t.sender, t.receiver, t.gasPrice, t.gasLimit, t.chainID, t.version)
  | .error _ => none

instance {ε α : Type} [DecidableEq ε] [DecidableEq α] : DecidableEq (Except ε α) := fun a b =>
  match a, b with
  | .error e, .error f =>
    if h : e = f then isTrue (h ▸ rfl) else isFalse fun hc => h (Except.error.inj hc)
  | .error _, .ok _ => isFalse fun hc => Except.noConfusion hc
  | .ok _, .error _ => isFalse fun hc => Except.noConfusion hc
  | .ok x, .ok y =>
    if h : x = y then isTrue (h ▸ rfl) else isFalse fun hc => h (Except.ok.inj hc)

/-! ## Helper lemmas about characters and digit strings -/

theorem natToDecAux_irrel (f1 : Nat) : ∀ n f2, n < f1 → n < f2 →
    natToDecAux f1 n = natToDecAux f2 n := by
  induction f1 with
  | zero => intro n f2 h1 h2; omega
  | succ f ih =>
    intro n f2 h1 h2
    cases f2 with
    | zero => omega
    | succ f2' =>
      simp only [natToDecAux]
      split
      · rfl
      · rename_i h
        have hdiv : n / 10 < n := Nat.div_lt_self (by omega) (by omega)
        rw [ih (n / 10) f2' (by omega) (by omega)]

theorem natToDecDigits_unfold (n : Nat) :
    natToDecDigits n =
      if n < 10 then [decDigitChar n]
      else natToDecDigits (n / 10) ++ [decDigitChar (n % 10)] := by
  show natToDecAux (n + 1) n = _
  simp only [natToDecAux]
  split
  · rfl
  · rename_i h
    have hdiv : n / 10 < n := Nat.div_lt_self (by omega) (by omega)
    rw [natToDecAux_irrel n (n / 10) (n / 10 + 1) (by omega) (by omega)]
    rfl

theorem natToHexAux_irrel (f1 : Nat) : ∀ n f2, n < f1 → n < f2 →
    natToHexAux f1 n = natToHexAux f2 n := by
  induction f1 with
  | zero => intro n f2 h1 h2; omega
  | succ f ih =>
    intro n f2 h1 h2
    cases f2 with
    | zero => omega
    | succ f2' =>
      simp only [natToHexAux]
      split
      · rfl
      · rename_i h
        have hdiv : n / 16 < n := Nat.div_lt_self (by omega) (by omega)
        rw [ih (n / 16) f2' (by omega) (by omega)]

theorem natToHexDigits_unfold (n : Nat) :
    natToHexDigits n =
      if n < 16 then [hexDigitChar n]
      else natToHexDigits (n / 16) ++ [hexDigitChar (n % 16)] := by
  show natToHexAux (n + 1) n = _
  simp only [natToHexAux]
  split
  · rfl
  · rename_i h
    have hdiv : n / 16 < n := Nat.div_lt_self (by omega) (by omega)
    rw [natToHexAux_irrel n (n / 16) (n / 16 + 1) (by omega) (by omega)]
    rfl

theorem dropWhile_eq_self_of {α} (p : α → Bool) (l : List α) (h : ∀ c ∈ l, p c = false) :
    l.dropWhile p = l := by
  cases l with
  | nil => rfl
  | cons a t =>
    have ha := h a (List.mem_cons_self a t)
    simp [List.dropWhile_cons, ha]

theorem hexDigitChar_isHex (n : Nat) : isHexDigitChar (hexDigitChar n) = true := by
  have hk : n % 16 < 16 := Nat.mod_lt _ (by omega)
  have htab : ∀ k, k < 16 → isHexDigitChar (hexTable.getD k '0') = true := by decide
  exact htab _ hk

theorem hexDigitChar_val (n : Nat) : hexDigitVal (hexDigitChar n) = n % 16 := by
  have hk : n % 16 < 16 := Nat.mod_lt _ (by omega)
  have htab : ∀ k, k < 16 → hexDigitVal (hexTable.getD k '0') = k := by decide
  exact htab _ hk

theorem decDigitChar_isDigit (n : Nat) : isDigitChar (decDigitChar n) = true := by
  have hk : n % 10 < 10 := Nat.mod_lt _ (by omega)
  have htab : ∀ k, k < 10 → isDigitChar (decTable.getD k '0') = true := by decide
  exact htab _ hk

theorem decDigitChar_val (n : Nat) : charNat (decDigitChar n) - 48 = n % 10 := by
  have hk : n % 10 < 10 := Nat.mod_lt _ (by omega)
  have htab : ∀ k, k < 10 → charNat (decTable.getD k '0') - 48 = k := by decide
  exact htab _ hk

theorem hex_not_ws (c : Char) (h : isHexDigitChar c = true) : pyWS c = false := by
  simp only [isHexDigitChar, Bool.or_eq_true, Bool.and_eq_true, decide_eq_true_eq] at h
  simp only [pyWS, Bool.or_eq_false_iff, decide_eq_false_iff_not]
  omega

theorem hex_ne_underscore (c : Char) (h : isHexDigitChar c = true) : c ≠ '_' := by
  intro he
  rw [he] at h
  exact absurd h (by decide)

theorem hex_ne_plus (c : Char) (h : isHexDigitChar c = true) : c ≠ '+' := by
  intro he
  rw [he] at h
  exact absurd h (by decide)

theorem hex_ne_minus (c : Char) (h : isHexDigitChar c = true) : c ≠ '-' := by
  intro he
  rw [he] at h
  exact absurd h (by decide)

theorem hex_ne_lower_x (c : Char) (h : isHexDigitChar c = true) : c ≠ 'x' := by
  intro he
  rw [he] at h
  exact absurd h (by decide)

theorem hex_ne_upper_X (c : Char) (h : isHexDigitChar c = true) : c ≠ 'X' := by
  intro he
  rw [he] at h
  exact absurd h (by decide)

theorem usRun_of_hex (l : List Char) (hne : l ≠ []) (hall : ∀ c ∈ l, isHexDigitChar c = true) :
    ∀ b, usRun b l = true := by
  induction l with
  | nil => exact absurd rfl hne
  | cons a t ih =>
    intro b
    have ha := hall a (List.mem_cons_self a t)
    cases t with
    | nil => simp [usRun, ha]
    | cons d t2 =>
      have h2 : ∀ c ∈ d :: t2, isHexDigitChar c = true :=
        fun c hc => hall c (List.mem_cons_of_mem _ hc)
      simp only [usRun]
      rw [if_neg (hex_ne_underscore a ha), ha, ih (by simp) h2 true, Bool.and_self]

theorem stripSign_of_hex (l : List Char) (hne : l ≠ []) (hall : ∀ c ∈ l, isHexDigitChar c = true) :
    stripSign l = (1, l) := by
  cases l with
  | nil => exact absurd rfl hne
  | cons a t =>
    have ha := hall a (List.mem_cons_self a t)
    simp only [stripSign]
    rw [if_neg (hex_ne_plus a ha), if_neg (hex_ne_minus a ha)]

theorem stripHexPrefixTag_of_hex (l : List Char)
    (hall : ∀ c ∈ l, isHexDigitChar c = true) : stripHexPrefixTag l = (false, l) := by
  cases l with
  | nil => rfl
  | cons a t =>
    cases t with
    | nil => rfl
    | cons b t2 =>
      have hb := hall b (List.mem_cons_of_mem _ (List.mem_cons_self b t2))
      simp only [stripHexPrefixTag]
      rw [if_neg]
      intro hcond
      rcases hcond.2 with hx | hX
      · exact hex_ne_lower_x b hb hx
      · exact hex_ne_upper_X b hb hX

theorem pyIntBase16_hexchars (l : List Char) (hne : l ≠ [])
    (hall : ∀ c ∈ l, isHexDigitChar c = true) :
    pyIntBase16Chars? l = some (Int.ofNat (hexCharsVal l)) := by
  have hws : ∀ c ∈ l, pyWS c = false := fun c hc => hex_not_ws c (hall c hc)
  have h1 : l.dropWhile pyWS = l := dropWhile_eq_self_of _ _ hws
  have h2 : l.reverse.dropWhile pyWS = l.reverse :=
    dropWhile_eq_self_of _ _ (fun c hc => hws c (List.mem_reverse.mp hc))
  have hfil : l.filter (fun c => c ≠ '_') = l :=
    List.filter_eq_self.mpr (fun c hc => by
      simpa using hex_ne_underscore c (hall c hc))
  unfold pyIntBase16Chars?
  simp only [h1, h2, List.reverse_reverse, stripSign_of_hex l hne hall,
    stripHexPrefixTag_of_hex l hall]
  rw [if_pos (usRun_of_hex l hne hall false), hfil]
  simp

theorem hexCharsVal_append_digit (l : List Char) (c : Char) :
    hexCharsVal (l ++ [c]) = 16 * hexCharsVal l + hexDigitVal c := by
  simp [hexCharsVal, List.foldl_append]

theorem hexCharsVal_cons_zero (l : List Char) : hexCharsVal ('0' :: l) = hexCharsVal l := by
  simp [hexCharsVal, List.foldl_cons]
  rfl

theorem decCharsVal_append_digit (l : List Char) (c : Char) :
    decCharsVal (l ++ [c]) = 10 * decCharsVal l + (charNat c - 48) := by
  simp [decCharsVal, List.foldl_append]

theorem natToHexDigits_ne_nil (n : Nat) : natToHexDigits n ≠ [] := by
  rw [natToHexDigits_unfold]
  split <;> simp

theorem natToHexDigits_all_hex (n : Nat) :
    ∀ c ∈ natToHexDigits n, isHexDigitChar c = true := by
  induction n using Nat.strong_induction_on with
  | _ n ih =>
    rw [natToHexDigits_unfold]
    split
    · intro c hc
      simp only [List.mem_singleton] at hc
      rw [hc]
      exact hexDigitChar_isHex n
    · rename_i h
      intro c hc
      rw [List.mem_append] at hc
      rcases hc with hc | hc
      · exact ih (n / 16) (Nat.div_lt_self (by omega) (by omega)) c hc
      · simp only [List.mem_singleton] at hc
        rw [hc]
        exact hexDigitChar_isHex _

theorem hexCharsVal_natToHexDigits (n : Nat) : hexCharsVal (natToHexDigits n) = n := by
  induction n using Nat.strong_induction_on with
  | _ n ih =>
    rw [natToHexDigits_unfold]
    split
    · rename_i h
      simp only [hexCharsVal, List.foldl_cons, List.foldl_nil]
      rw [hexDigitChar_val]
      omega
    · rename_i h
      rw [hexCharsVal_append_digit, ih (n / 16) (Nat.div_lt_self (by omega) (by omega)),
        hexDigitChar_val]
      omega

theorem natToDecDigits_ne_nil (n : Nat) : natToDecDigits n ≠ [] := by
  rw [natToDecDigits_unfold]
  split <;> simp

theorem natToDecDigits_all_digits (n : Nat) :
    ∀ c ∈ natToDecDigits n, isDigitChar c = true := by
  induction n using Nat.strong_induction_on with
  | _ n ih =>
    rw [natToDecDigits_unfold]
    split
    · intro c hc
      simp only [List.mem_singleton] at hc
      rw [hc]
      exact decDigitChar_isDigit n
    · rename_i h
      intro c hc
      rw [List.mem_append] at hc
      rcases hc with hc | hc
      · exact ih (n / 10) (Nat.div_lt_self (by omega) (by omega)) c hc
      · simp only [List.mem_singleton] at hc
        rw [hc]
        exact decDigitChar_isDigit _

theorem decCharsVal_natToDecDigits (n : Nat) : decCharsVal (natToDecDigits n) = n := by
  induction n using Nat.strong_induction_on with
  | _ n ih =>
    rw [natToDecDigits_unfold]
    split
    · rename_i h
      simp only [decCharsVal, List.foldl_cons, List.foldl_nil]
      rw [Nat.mul_zero, Nat.zero_add, decDigitChar_val]
      omega
    · rename_i h
      rw [decCharsVal_append_digit, ih (n / 10) (Nat.div_lt_self (by omega) (by omega)),
        decDigitChar_val]
      omega

/-! ## Helper lemmas about uppercasing -/

theorem pyUpperChar_digit (c : Char) (h : isDigitChar c = true) : pyUpperChar c = c := by
  simp only [isDigitChar, Bool.and_eq_true, decide_eq_true_eq] at h
  rw [pyUpperChar, if_neg (by omega)]

theorem pyUpperChar_hex (c : Char) (h : isHexDigitChar c = true) :
    isHexDigitChar (pyUpperChar c) = true := by
  simp only [isHexDigitChar, Bool.or_eq_true, Bool.and_eq_true, decide_eq_true_eq] at h
  by_cases hlow : 97 ≤ charNat c ∧ charNat c ≤ 122
  · have hk : charNat c - 97 < 6 := by omega
    rw [pyUpperChar, if_pos hlow]
    have htab : ∀ k, k < 6 → isHexDigitChar (upperTable.getD k 'A') = true := by decide
    exact htab _ hk
  · rw [pyUpperChar, if_neg hlow]
    simp only [isHexDigitChar, Bool.or_eq_true, Bool.and_eq_true, decide_eq_true_eq]
    omega

theorem map_pyUpperChar_digits (l : List Char) (h : ∀ c ∈ l, isDigitChar c = true) :
    l.map pyUpperChar = l := by
  rw [List.map_congr_left (fun a ha => pyUpperChar_digit a (h a ha))]
  simp

theorem startsWith0X_digits (l : List Char) (h : ∀ c ∈ l, isDigitChar c = true) :
    startsWith0X ⟨l⟩ = false := by
  cases l with
  | nil => rfl
  | cons a t =>
    cases t with
    | nil => rfl
    | cons b t2 =>
      have hb := h b (List.mem_cons_of_mem _ (List.mem_cons_self b t2))
      show (a = '0' && b = 'X') = false
      have hbX : b ≠ 'X' := by
        intro he
        rw [he] at hb
        exact absurd hb (by decide)
      simp [hbX]

/-! ## Helper lemmas about `bytes.hex()` and the Keccak digest -/

theorem bytesToHexChars_all_hex (bs : List Nat) :
    ∀ c ∈ bytesToHexChars bs, isHexDigitChar c = true := by
  induction bs with
  | nil => intro c hc; simp [bytesToHexChars] at hc
  | cons b t ih =>
    intro c hc
    simp only [bytesToHexChars, List.map_cons, List.flatten_cons] at hc
    rw [List.mem_append] at hc
    rcases hc with hc | hc
    · simp only [byteToHexChars, List.mem_cons, List.mem_singleton] at hc
      rcases hc with hc | hc | hc
      · rw [hc]; exact hexDigitChar_isHex _
      · rw [hc]; exact hexDigitChar_isHex _
      · simp at hc
    · exact ih c hc

theorem bytesToHexChars_ne_nil (bs : List Nat) (h : bs ≠ []) : bytesToHexChars bs ≠ [] := by
  cases bs with
  | nil => exact absurd rfl h
  | cons b t => simp [bytesToHexChars, byteToHexChars]

theorem bytesToHexChars_append (a b : List Nat) :
    bytesToHexChars (a ++ b) = bytesToHexChars a ++ bytesToHexChars b := by
  simp [bytesToHexChars, List.map_append, List.flatten_append]

theorem toLEBytes_length (k n : Nat) : (toLEBytes k n).length = k := by
  simp [toLEBytes]

theorem keccak256_length (m : List Nat) : (keccak256 m).length = 32 := by
  have h : ∀ g : Nat → Nat,
      (((List.range 4).map fun i => toLEBytes 8 (g i)).flatten).length = 32 := by
    intro g
    rw [List.length_flatten, List.map_map]
    have hc : (List.length ∘ fun i => toLEBytes 8 (g i)) = fun _ => 8 :=
      funext fun i => toLEBytes_length 8 (g i)
    rw [hc]
    rfl
  exact h _

/-! ## Helper lemmas about `ensure_even_length` -/

theorem ensure_even_length_data (s : String) :
    (ensure_even_length s).data =
      if s.data.length % 2 = 1 then '0' :: s.data else s.data := by
  rw [ensure_even_length]
  split <;> rfl

theorem ensure_even_length_even (s : String) :
    (ensure_even_length s).data.length % 2 = 0 := by
  rw [ensure_even_length_data]
  split
  · rename_i h
    simp only [List.length_cons]
    omega
  · rename_i h
    omega

/-! ## Claim theorems -/

/-- C7: `CodeMetadata.to_hex` realises exactly the four-row flag table:
`(false,false) ↦ "0000"`, `(true,false) ↦ "0100"`, `(false,true) ↦ "0002"`,
`(true,true) ↦ "0102"`, i.e. byte 0 is `0x01` iff upgradeable and byte 1 is
`0x02` iff payable. -/
theorem code_metadata_to_hex_table :
    CodeMetadata.to_hex ⟨false, false⟩ = "0000" ∧
    CodeMetadata.to_hex ⟨true, false⟩ = "0100" ∧
    CodeMetadata.to_hex ⟨false, true⟩ = "0002" ∧
    CodeMetadata.to_hex ⟨true, true⟩ = "0102" := by
  refine ⟨by decide, by decide, by decide, by decide⟩

/-- C1 counterexample: with bytecode `"AABB"`, metadata `(true, false)` and
arguments `[5, "0XFF"]`, the deploy data is NOT
`"AABB@<vmMarker>@0100@05@ff"`: the code uppercases every argument's textual
form, so the hex-literal argument is emitted as `"FF"`, not `"ff"`. -/
theorem deploy_data_example_not_lowercase :
    prepare_deploy_transaction_data ⟨zeroAddressBytes, "AABB", ⟨true, false⟩⟩
        [Arg.num 5, Arg.str "0XFF"] ≠
      Except.ok ("AABB@" ++ VM_TYPE_WASM_VM ++ "@0100@05@ff") := by
  decide

/-- C1 (amended): the deploy data for bytecode `"AABB"`, metadata
`(true, false)` and arguments `[5, "0XFF"]` is `"AABB@"`, the VM-type marker
hex, then `"@0100@05@FF"` — bytecode, VM marker, metadata and each encoded
argument joined by `@`, with the hex-literal argument emitted uppercase
(`"FF"`), since `_prepare_argument` uppercases the textual form first. -/
theorem deploy_data_example_uppercase :
    prepare_deploy_transaction_data ⟨zeroAddressBytes, "AABB", ⟨true, false⟩⟩
        [Arg.num 5, Arg.str "0XFF"] =
      Except.ok ("AABB@" ++ VM_TYPE_WASM_VM ++ "@0100@05@FF") := by
  decide

/-- Encoding any non-empty all-digit string takes the decimal branch and
returns the even-padded hex rendering of its decimal value. -/
theorem prepare_argument_digits (l : List Char) (hne : l ≠ [])
    (hdig : ∀ c ∈ l, isDigitChar c = true) :
    prepare_argument (Arg.str ⟨l⟩) =
      Except.ok (ensure_even_length (natToHexStr (decCharsVal l))) := by
  unfold prepare_argument
  have hup : pyUpper ⟨l⟩ = ⟨l⟩ := congrArg String.mk (map_pyUpperChar_digits _ hdig)
  show (if startsWith0X (pyUpper ⟨l⟩) = true then prepare_hexadecimal (pyUpper ⟨l⟩)
        else prepare_decimal (pyUpper ⟨l⟩)) = _
  rw [hup, startsWith0X_digits _ hdig]
  simp only [Bool.false_eq_true, if_false]
  unfold prepare_decimal
  have hnum : pyIsNumeric ⟨l⟩ = true := by
    have hemp : l.isEmpty = false := by
      cases l with
      | nil => exact absurd rfl hne
      | cons a t => rfl
    show (!l.isEmpty && l.all isDigitChar) = true
    rw [hemp, List.all_eq_true.mpr hdig]
    rfl
  rw [if_pos hnum]

theorem mkData (l : List Char) : (String.mk l).data = l := rfl

theorem ensure_even_length_of_even (s : String) (h : s.data.length % 2 = 0) :
    ensure_even_length s = s := by
  rw [ensure_even_length, if_neg (by omega)]

theorem ensure_even_length_of_odd (s : String) (h : s.data.length % 2 = 1) :
    ensure_even_length s = ⟨'0' :: s.data⟩ := by
  rw [ensure_even_length, if_pos h]

/-- Evaluation of `prepare_hexadecimal` on a string that starts with the
(already uppercased) `0X` prefix. -/
theorem prepare_hexadecimal_eval (l : List Char) :
    prepare_hexadecimal ⟨'0' :: 'X' :: l⟩ =
      match pyIntBase16Chars? (ensure_even_length ⟨l⟩).data with
      | some _ => Except.ok (ensure_even_length ⟨l⟩)
      | none => Except.error (PyErr.unknownArgumentFormat (ensure_even_length ⟨l⟩)) := rfl

/-- C5: encoding a non-negative integer argument succeeds, the encoded string
read back in base 16 yields the integer again, and the encoded string has
even length. -/
theorem decimal_argument_roundtrip (n : Nat) :
    prepare_argument (Arg.num (Int.ofNat n)) =
      Except.ok (ensure_even_length (natToHexStr n)) ∧
    hexCharsVal (ensure_even_length (natToHexStr n)).data = n ∧
    (ensure_even_length (natToHexStr n)).data.length % 2 = 0 := by
  have hdig := natToDecDigits_all_digits n
  have hne := natToDecDigits_ne_nil n
  refine ⟨?_, ?_, ensure_even_length_even _⟩
  · have h1 := prepare_argument_digits (natToDecDigits n) hne hdig
    rw [decCharsVal_natToDecDigits] at h1
    exact h1
  · rw [ensure_even_length_data]
    have hround : hexCharsVal (natToHexStr n).data = n := hexCharsVal_natToHexDigits n
    split
    · rw [hexCharsVal_cons_zero]
      exact hround
    · exact hround

/-- C3: `compute_address` returns exactly 8 zero bytes, the marker bytes
`0x05, 0x00`, bytes 10..30 of the Keccak-256 digest of
`ownerPubkey ++ nonce-LE8`, then bytes 30..32 of the owner public key; it is
deterministic and its bytes `[30..32)` equal the owner key's bytes
`[30..32)`. -/
theorem compute_address_spec (pk : List Nat) (n : Nat)
    (hpk : pk.length = 32) (hn : n < 2 ^ 64) :
    compute_address pk n =
      List.replicate 8 0 ++ [5, 0] ++
        ((keccak256 (pk ++ toLEBytes 8 n)).drop 10).take 20 ++ pk.drop 30 ∧
    (compute_address pk n).length = 32 ∧
    (∀ pk2 n2, pk2 = pk → n2 = n → compute_address pk2 n2 = compute_address pk n) ∧
    (compute_address pk n).drop 30 = pk.drop 30 := by
  have hT : (((keccak256 (pk ++ toLEBytes 8 n)).drop 10).take 20).length = 20 := by
    simp [List.length_take, List.length_drop, keccak256_length]
  refine ⟨rfl, ?_, ?_, ?_⟩
  · simp only [compute_address, List.length_append, List.length_replicate, List.length_cons,
      List.length_nil, List.length_drop, hT, hpk]
  · intro pk2 n2 h1 h2
    rw [h1, h2]
  · have hassoc : compute_address pk n =
        (List.replicate 8 0 ++ [5, 0] ++
          ((keccak256 (pk ++ toLEBytes 8 n)).drop 10).take 20) ++ pk.drop 30 := by
      simp [compute_address, List.append_assoc]
    rw [hassoc]
    exact List.drop_left' (by simp [List.length_append, hT])

/-- C3 witness: the theorem applied to the all-zero 32-byte key and nonce 0. -/
theorem compute_address_spec_witness :
    (List.replicate 32 0 : List Nat).length = 32 ∧ (0 : Nat) < 2 ^ 64 ∧
    (compute_address (List.replicate 32 0) 0 =
      List.replicate 8 0 ++ [5, 0] ++
        ((keccak256 (List.replicate 32 0 ++ toLEBytes 8 0)).drop 10).take 20 ++
        (List.replicate 32 0 : List Nat).drop 30 ∧
    (compute_address (List.replicate 32 0) 0).length = 32 ∧
    (∀ pk2 n2, pk2 = List.replicate 32 0 → n2 = 0 →
      compute_address pk2 n2 = compute_address (List.replicate 32 0) 0) ∧
    (compute_address (List.replicate 32 0) 0).drop 30 =
      (List.replicate 32 0 : List Nat).drop 30) :=
  ⟨by decide, by norm_num,
    compute_address_spec (List.replicate 32 0) 0 (by decide) (by norm_num)⟩

/-- C6 counterexample: the even-length hex string `h = "ff"` is NOT returned
unchanged by `encode("0X" + h)`: the code uppercases the whole textual form
first, so the result is `"FF"`, not `h` itself. -/
theorem hex_literal_not_identity :
    prepare_argument (Arg.str ("0X" ++ "ff")) = Except.ok "FF" ∧ ("FF" : String) ≠ "ff" := by
  refine ⟨by decide, by decide⟩

/-- C6 (amended): for a non-empty hex-digit string `h`, encoding `"0X" ++ h`
returns the uppercased `h` when the length is even (equal to `h` itself
exactly when `h` has no lowercase letters), and an odd-length hex string is
accepted with a single `0` prepended to the uppercased text rather than
rejected. -/
theorem hex_literal_encoding (h : String) (hne : h.data ≠ [])
    (hhex : ∀ c ∈ h.data, isHexDigitChar c = true) :
    (h.data.length % 2 = 0 →
      prepare_argument (Arg.str ("0X" ++ h)) = Except.ok (pyUpper h)) ∧
    (h.data.length % 2 = 1 →
      prepare_argument (Arg.str ("0X" ++ h)) = Except.ok ⟨'0' :: (pyUpper h).data⟩) := by
  have humapall : ∀ c ∈ h.data.map pyUpperChar, isHexDigitChar c = true := by
    intro c hc
    rcases List.mem_map.mp hc with ⟨a, ha, rfl⟩
    exact pyUpperChar_hex a (hhex a ha)
  have humapne : h.data.map pyUpperChar ≠ [] := by
    cases hd : h.data with
    | nil => exact absurd hd hne
    | cons a t => simp
  have hstart : prepare_argument (Arg.str ("0X" ++ h)) =
      prepare_hexadecimal ⟨'0' :: 'X' :: h.data.map pyUpperChar⟩ := by
    unfold prepare_argument
    have hup : pyUpper (argStr (Arg.str ("0X" ++ h))) =
        ⟨'0' :: 'X' :: h.data.map pyUpperChar⟩ := by
      show pyUpper ("0X" ++ h) = _
      simp only [pyUpper, String.data_append]
      rfl
    rw [hup]
    rfl
  constructor
  · intro heven
    have hevenm : (h.data.map pyUpperChar).length % 2 = 0 := by
      rw [List.length_map]
      exact heven
    rw [hstart, prepare_hexadecimal_eval,
      ensure_even_length_of_even ⟨h.data.map pyUpperChar⟩ hevenm]
    show (match pyIntBase16Chars? (h.data.map pyUpperChar) with
          | some _ => Except.ok (⟨h.data.map pyUpperChar⟩ : String)
          | none => Except.error (PyErr.unknownArgumentFormat ⟨h.data.map pyUpperChar⟩)) = _
    rw [pyIntBase16_hexchars _ humapne humapall]
    rfl
  · intro hodd
    have hoddm : (h.data.map pyUpperChar).length % 2 = 1 := by
      rw [List.length_map]
      exact hodd
    have hallz : ∀ c ∈ '0' :: h.data.map pyUpperChar, isHexDigitChar c = true := by
      intro c hc
      rcases List.mem_cons.mp hc with hc | hc
      · rw [hc]; decide
      · exact humapall c hc
    rw [hstart, prepare_hexadecimal_eval,
      ensure_even_length_of_odd ⟨h.data.map pyUpperChar⟩ hoddm]
    show (match pyIntBase16Chars? ('0' :: h.data.map pyUpperChar) with
          | some _ => Except.ok (⟨'0' :: h.data.map pyUpperChar⟩ : String)
          | none =>
            Except.error (PyErr.unknownArgumentFormat ⟨'0' :: h.data.map pyUpperChar⟩)) = _
    rw [pyIntBase16_hexchars _ (by simp) hallz]
    rfl

/-- C6 witness: the amended theorem applied to the even-length hex string
`"AB"` and the odd-length hex string `"A0F"`. -/
theorem hex_literal_encoding_witness :
    ("AB" : String).data ≠ [] ∧ (∀ c ∈ ("AB" : String).data, isHexDigitChar c = true) ∧
    prepare_argument (Arg.str ("0X" ++ "AB")) = Except.ok (pyUpper "AB") ∧
    ("A0F" : String).data ≠ [] ∧ (∀ c ∈ ("A0F" : String).data, isHexDigitChar c = true) ∧
    prepare_argument (Arg.str ("0X" ++ "A0F")) = Except.ok ⟨'0' :: (pyUpper "A0F").data⟩ :=
  ⟨by decide, by decide,
    (hex_literal_encoding "AB" (by decide) (by decide)).1 (by decide),
    by decide, by decide,
    (hex_literal_encoding "A0F" (by decide) (by decide)).2 (by decide)⟩

/-- C4 counterexample: the input `"0X-1"` is accepted, not rejected: its
uppercase form starts with `0X` but the text after the prefix, `"-1"`, is
not made of hex digits (it carries a sign), yet `_prepare_hexadecimal`
returns it because Python `int("-1", 16)` parses a signed literal.  It is
not a decimal input either (`isnumeric` is false), so under the claim it
should have raised `MalformedArgument`. -/
theorem hex_sign_accepted :
    prepare_argument (Arg.str "0X-1") = Except.ok "-1" ∧
    (pyUpper "0X-1").data.drop 2 = ['-', '1'] ∧
    isHexDigitChar '-' = false ∧
    pyIsNumeric (pyUpper "0X-1") = false := by
  refine ⟨by decide, by decide, by decide, by decide⟩

/-- C4 (amended): over ASCII input text, `_prepare_argument` raises
`UnknownArgumentFormat` (the spec's `MalformedArgument`) exactly when the
uppercased text neither (a) starts with `0X` and, after even-length
padding, parses under Python `int(·, 16)` — which also admits signs,
surrounding whitespace, an inner `0x` prefix and underscores, not just
plain hex digits — nor (b) lacks the prefix and consists only of decimal
digits; in particular every negative integer argument (textual form with a
sign character) raises, and valid inputs do not raise. -/
theorem argument_rejection (s : String) (hascii : ∀ c ∈ s.data, charNat c < 128) :
    ((∃ e, prepare_argument (Arg.str s) = Except.error e) ↔
      ¬ ((startsWith0X (pyUpper s) = true ∧
            (pyIntBase16Chars?
              (ensure_even_length ⟨(pyUpper s).data.drop 2⟩).data).isSome = true) ∨
          (startsWith0X (pyUpper s) = false ∧ pyIsNumeric (pyUpper s) = true))) ∧
    (∀ i : Int, i < 0 → ∃ e, prepare_argument (Arg.num i) = Except.error e) := by
  constructor
  · simp only [prepare_argument, argStr]
    by_cases hpre : startsWith0X (pyUpper s) = true
    · simp only [hpre, if_true, true_and, Bool.true_eq_false, false_and, or_false]
      simp only [prepare_hexadecimal]
      cases hp : pyIntBase16Chars? (ensure_even_length ⟨(pyUpper s).data.drop 2⟩).data with
      | some v => simp [hp]
      | none => simp [hp]
    · have hpre' : startsWith0X (pyUpper s) = false := by
        cases hb : startsWith0X (pyUpper s) with
        | true => exact absurd hb hpre
        | false => rfl
      simp only [hpre', Bool.false_eq_true, if_false, false_and, false_or, true_and]
      simp only [prepare_decimal]
      by_cases hnum : pyIsNumeric (pyUpper s) = true
      · simp [hnum]
      · have hnum' : pyIsNumeric (pyUpper s) = false := by
          cases hb : pyIsNumeric (pyUpper s) with
          | true => exact absurd hb hnum
          | false => rfl
        simp [hnum']
  · intro i hi
    cases i with
    | ofNat m => exact absurd hi (Int.not_lt.mpr (Int.ofNat_nonneg m))
    | negSucc m =>
      simp only [prepare_argument, argStr, intToDecChars]
      have hup : pyUpper ⟨'-' :: natToDecDigits (m + 1)⟩ = ⟨'-' :: natToDecDigits (m + 1)⟩ := by
        simp only [pyUpper, mkData, List.map_cons,
          map_pyUpperChar_digits _ (natToDecDigits_all_digits _)]
        rfl
      rw [hup]
      cases hd : natToDecDigits (m + 1) with
      | nil => exact absurd hd (natToDecDigits_ne_nil _)
      | cons d t =>
        have hsw : startsWith0X ⟨'-' :: d :: t⟩ = false := rfl
        have hnn : pyIsNumeric ⟨'-' :: d :: t⟩ = false := rfl
        rw [hsw]
        simp only [Bool.false_eq_true, if_false, prepare_decimal, hnn]
        exact ⟨_, rfl⟩

/-- C4 witness: the amended theorem applied to the non-numeric input `"ZZ"`
(which must and does raise) and the negative integer `-5`. -/
theorem argument_rejection_witness :
    (∃ e, prepare_argument (Arg.str "ZZ") = Except.error e) ∧
    (∃ e, prepare_argument (Arg.num (-5)) = Except.error e) :=
  ⟨(argument_rejection "ZZ" (by decide)).1.mpr (by decide),
    (argument_rejection "ZZ" (by decide)).2 (-5) (by decide)⟩

/-- Evaluation of `_interpret_return_data` on non-falsy input. -/
theorem interpret_return_data_eval (d : String) (hd : d ≠ "") :
    interpret_return_data d =
      match b64decode? d with
      | none => InterpretedValue.pyNone
      | some as_bytes =>
        match pyIntBase16Chars? (bytesToHexStr as_bytes).data with
        | none => InterpretedValue.pyNone
        | some as_number => InterpretedValue.ok ⟨d, bytesToHexStr as_bytes, as_number⟩ := by
  unfold interpret_return_data
  rw [if_neg hd]

/-- C9: whenever `_interpret_return_data` produces a `QueryResult`, the three
readings are consistent: `base64` is the received entry, `hex` is the hex of
the bytes that entry base64-decodes to, and `number` is that hex string read
as an unsigned base-16 integer. -/
theorem query_result_consistency (d : String) (q : QueryResult)
    (h : interpret_return_data d = InterpretedValue.ok q) :
    q.base64 = d ∧
    ∃ bs, b64decode? d = some bs ∧ bs ≠ [] ∧ q.hex = bytesToHexStr bs ∧
      q.number = Int.ofNat (hexCharsVal q.hex.data) := by
  by_cases hd : d = ""
  · rw [show interpret_return_data d = InterpretedValue.raw d from by
      unfold interpret_return_data; rw [if_pos hd]] at h
    exact absurd h (by simp)
  · rw [interpret_return_data_eval d hd] at h
    cases hb : b64decode? d with
    | none =>
      rw [hb] at h
      exact absurd h (by simp)
    | some bs =>
      rw [hb] at h
      have h2 : (match pyIntBase16Chars? (bytesToHexStr bs).data with
          | none => InterpretedValue.pyNone
          | some as_number =>
            InterpretedValue.ok ⟨d, bytesToHexStr bs, as_number⟩) = InterpretedValue.ok q := h
      by_cases hbs : bs = []
      · subst hbs
        have hz : pyIntBase16Chars? (bytesToHexStr ([] : List Nat)).data = none := rfl
        rw [hz] at h2
        exact absurd h2 (by simp)
      · have hp : pyIntBase16Chars? (bytesToHexStr bs).data =
            some (Int.ofNat (hexCharsVal (bytesToHexChars bs))) :=
          pyIntBase16_hexchars _ (bytesToHexChars_ne_nil bs hbs) (bytesToHexChars_all_hex bs)
        rw [hp] at h2
        have hq : (⟨d, bytesToHexStr bs, Int.ofNat (hexCharsVal (bytesToHexChars bs))⟩ :
            QueryResult) = q := by
          exact InterpretedValue.ok.inj h2
        subst hq
        exact ⟨rfl, bs, rfl, hbs, rfl, rfl⟩

/-- C9 witness: the theorem applied to the concrete decodable entry
`"AQ=="`, whose result is `QueryResult ("AQ==", "01", 1)`. -/
theorem query_result_consistency_witness :
    interpret_return_data "AQ==" = InterpretedValue.ok ⟨"AQ==", "01", 1⟩ ∧
    ((⟨"AQ==", "01", 1⟩ : QueryResult).base64 = "AQ==" ∧
      ∃ bs, b64decode? "AQ==" = some bs ∧ bs ≠ [] ∧
        (⟨"AQ==", "01", 1⟩ : QueryResult).hex = bytesToHexStr bs ∧
        (⟨"AQ==", "01", 1⟩ : QueryResult).number =
          Int.ofNat (hexCharsVal (⟨"AQ==", "01", 1⟩ : QueryResult).hex.data)) :=
  ⟨by decide, query_result_consistency "AQ==" ⟨"AQ==", "01", 1⟩ (by decide)⟩

/-- C2 counterexample: for the return-data list `["AQ==", "A"]` (one entry
decodable, one not), the failing entry is swallowed into Python `None`
(modelled by `InterpretedValue.pyNone`) with only a logged warning — a
generic null visible at index 1 of the results — rather than the
distinguished invalid variant the claim requires. -/
theorem query_swallows_into_generic_null :
    query_model (some ["AQ==", "A"]) none =
      [InterpretedValue.ok ⟨"AQ==", "01", 1⟩, InterpretedValue.pyNone] := by
  decide

/-- C2 (amended): for a query whose return-data holds one decodable entry
and one entry that cannot be base64-decoded, the result list still has
length 2 and decoding of the healthy entry is not aborted, but the failing
entry is reported as Python `None` (with only a log line), not as a
distinguished invalid variant. -/
theorem query_entry_handling (d1 d2 : String) (bs : List Nat)
    (h1 : b64decode? d1 = some bs) (hbs : bs ≠ []) (h2 : b64decode? d2 = none) :
    query_model (some [d1, d2]) none =
      [InterpretedValue.ok ⟨d1, bytesToHexStr bs, Int.ofNat (hexCharsVal (bytesToHexChars bs))⟩,
       InterpretedValue.pyNone] := by
  have hd1 : d1 ≠ "" := by
    intro he
    rw [he] at h1
    have hh : some ([] : List Nat) = some bs := h1
    exact hbs (Option.some.inj hh).symm
  have hd2 : d2 ≠ "" := by
    intro he
    rw [he] at h2
    have hh : some ([] : List Nat) = none := h2
    exact Option.noConfusion hh
  have e1 : interpret_return_data d1 =
      InterpretedValue.ok ⟨d1, bytesToHexStr bs, Int.ofNat (hexCharsVal (bytesToHexChars bs))⟩ := by
    rw [interpret_return_data_eval d1 hd1, h1]
    have hp : pyIntBase16Chars? (bytesToHexStr bs).data =
        some (Int.ofNat (hexCharsVal (bytesToHexChars bs))) :=
      pyIntBase16_hexchars _ (bytesToHexChars_ne_nil bs hbs) (bytesToHexChars_all_hex bs)
    show (match pyIntBase16Chars? (bytesToHexStr bs).data with
          | none => InterpretedValue.pyNone
          | some as_number =>
            InterpretedValue.ok ⟨d1, bytesToHexStr bs, as_number⟩) = _
    rw [hp]
  have e2 : interpret_return_data d2 = InterpretedValue.pyNone := by
    rw [interpret_return_data_eval d2 hd2, h2]
  show [d1, d2].map interpret_return_data = _
  rw [List.map_cons, List.map_cons, List.map_nil, e1, e2]

/-- C2 witness: the amended theorem applied to the decodable entry `"AQ=="`
and the undecodable entry `"A"`. -/
theorem query_entry_handling_witness :
    b64decode? "AQ==" = some [1] ∧ ([1] : List Nat) ≠ [] ∧ b64decode? "A" = none ∧
    query_model (some ["AQ==", "A"]) none =
      [InterpretedValue.ok
         ⟨"AQ==", bytesToHexStr [1], Int.ofNat (hexCharsVal (bytesToHexChars [1]))⟩,
       InterpretedValue.pyNone] :=
  ⟨by decide, by decide, by decide,
    query_entry_handling "AQ==" "A" [1] (by decide) (by decide) (by decide)⟩

/-- Evaluation of the deploy data builder when every argument encodes. -/
theorem prepare_deploy_data_ok (sc : SmartContract) (arguments : List Arg) (parts : List String)
    (hargs : arguments.mapM prepare_argument = Except.ok parts) :
    prepare_deploy_transaction_data sc arguments =
      Except.ok (parts.foldl (fun acc p => acc ++ "@" ++ p)
        (sc.bytecode ++ "@" ++ VM_TYPE_WASM_VM ++ "@" ++ sc.metadata.to_hex)) := by
  unfold prepare_deploy_transaction_data
  rw [hargs]
  rfl

/-- Evaluation of the execute data builder when every argument encodes. -/
theorem prepare_execute_data_ok (function : String) (arguments : List Arg) (parts : List String)
    (hargs : arguments.mapM prepare_argument = Except.ok parts) :
    prepare_execute_transaction_data function arguments =
      Except.ok (parts.foldl (fun acc p => acc ++ "@" ++ p) function) := by
  unfold prepare_execute_transaction_data
  rw [hargs]
  rfl

/-- Evaluation of the upgrade data builder when every argument encodes. -/
theorem prepare_upgrade_data_ok (sc : SmartContract) (arguments : List Arg) (parts : List String)
    (hargs : arguments.mapM prepare_argument = Except.ok parts) :
    prepare_upgrade_transaction_data sc arguments =
      Except.ok (parts.foldl (fun acc p => acc ++ "@" ++ p)
        ("upgradeContract@" ++ sc.bytecode ++ "@" ++ sc.metadata.to_hex)) := by
  unfold prepare_upgrade_transaction_data
  rw [hargs]
  rfl

/-- Evaluation of `deploy` for an integer gas price and encodable
arguments. -/
theorem deploy_ok (sc : SmartContract) (owner : Account) (arguments : List Arg)
    (parts : List String) (g lim v : Nat) (chain : String) (ver : Nat)
    (hargs : arguments.mapM prepare_argument = Except.ok parts) :
    deploy sc owner arguments (some g) lim v chain ver =
      Except.ok
        ({ nonce := owner.nonce
           value := natToDecStr v
           sender := bech32M owner.pubkey
           receiver := bech32M zeroAddressBytes
           gasPrice := g
           gasLimit := lim
           data := parts.foldl (fun acc p => acc ++ "@" ++ p)
             (sc.bytecode ++ "@" ++ VM_TYPE_WASM_VM ++ "@" ++ sc.metadata.to_hex)
           chainID := chain
           version := ver },
         { sc with address := compute_address owner.pubkey owner.nonce }) := by
  unfold deploy
  rw [prepare_deploy_data_ok sc arguments parts hargs]
  rfl

/-- Evaluation of `execute` for an integer gas price and encodable
arguments. -/
theorem execute_ok (sc : SmartContract) (caller : Account) (function : String)
    (arguments : List Arg) (parts : List String) (g lim v : Nat) (chain : String) (ver : Nat)
    (hargs : arguments.mapM prepare_argument = Except.ok parts) :
    execute sc caller function arguments (some g) lim v chain ver =
      Except.ok
        { nonce := caller.nonce
          value := natToDecStr v
          sender := bech32M caller.pubkey
          receiver := bech32M sc.address
          gasPrice := g
          gasLimit := lim
          data := parts.foldl (fun acc p => acc ++ "@" ++ p) function
          chainID := chain
          version := ver } := by
  unfold execute
  rw [prepare_execute_data_ok function arguments parts hargs]
  rfl

/-- Evaluation of `upgrade` for any optional gas price and encodable
arguments: the gas price on the transaction is `gas_price or
DEFAULT_GAS_PRICE`. -/
theorem upgrade_ok (sc : SmartContract) (owner : Account) (arguments : List Arg)
    (parts : List String) (gas_price : Option Nat) (lim v : Nat) (chain : String) (ver : Nat)
    (hargs : arguments.mapM prepare_argument = Except.ok parts) :
    upgrade sc owner arguments gas_price lim v chain ver =
      Except.ok
        { nonce := owner.nonce
          value := natToDecStr v
          sender := bech32M owner.pubkey
          receiver := bech32M sc.address
          gasPrice := pyOrDefault gas_price DEFAULT_GAS_PRICE
          gasLimit := lim
          data := parts.foldl (fun acc p => acc ++ "@" ++ p)
            ("upgradeContract@" ++ sc.bytecode ++ "@" ++ sc.metadata.to_hex)
          chainID := chain
          version := ver } := by
  unfold upgrade
  rw [prepare_upgrade_data_ok sc arguments parts hargs]
  rfl

theorem pyOrDefault_some_ne_zero (g d : Nat) (hg : g ≠ 0) : pyOrDefault (some g) d = g := by
  cases g with
  | zero => exact absurd rfl hg
  | succ k => rfl

/-- The modelled zero-address text always differs from the text of a derived
contract address: a derived address carries the marker bytes `0x05, 0x00` at
offsets 8..10, the zero address is all zero bytes. -/
theorem bech32M_zero_ne_derived (pk : List Nat) (n : Nat) :
    bech32M zeroAddressBytes ≠ bech32M (compute_address pk n) := by
  intro he
  have hd := congrArg String.data he
  have hL : (bech32M zeroAddressBytes).data =
      "erd1".data ++ bytesToHexChars zeroAddressBytes := by
    simp only [bech32M, bytesToHexStr, String.data_append, mkData]
  have hR : (bech32M (compute_address pk n)).data =
      ("erd1".data ++ bytesToHexChars (List.replicate 8 0 ++ [5, 0])) ++
        bytesToHexChars
          (((keccak256 (pk ++ toLEBytes 8 n)).drop 10).take 20 ++ pk.drop 30) := by
    simp only [bech32M, bytesToHexStr, String.data_append, mkData, compute_address]
    rw [List.append_assoc (List.replicate 8 0 ++ [5, 0])
      (((keccak256 (pk ++ toLEBytes 8 n)).drop 10).take 20) (pk.drop 30)]
    rw [bytesToHexChars_append, ← List.append_assoc]
  rw [hL, hR] at hd
  have h24 : ("erd1".data ++ bytesToHexChars (List.replicate 8 0 ++ [5, 0])).length = 24 := by
    decide
  have ht := congrArg (List.take 24) hd
  rw [List.take_left' h24] at ht
  exact absurd ht (by decide)

/-- C8: when deploy succeeds, the owner nonce placed in the transaction's
nonce field is the very nonce fed to address derivation, and the receiver is
the network zero address — which differs from the derived contract
address. -/
theorem deploy_nonce_and_receiver (sc : SmartContract) (owner : Account) (arguments : List Arg)
    (parts : List String) (g lim v : Nat) (chain : String) (ver : Nat)
    (hargs : arguments.mapM prepare_argument = Except.ok parts) :
    deploy sc owner arguments (some g) lim v chain ver =
      Except.ok
        ({ nonce := owner.nonce
           value := natToDecStr v
           sender := bech32M owner.pubkey
           receiver := bech32M zeroAddressBytes
           gasPrice := g
           gasLimit := lim
           data := parts.foldl (fun acc p => acc ++ "@" ++ p)
             (sc.bytecode ++ "@" ++ VM_TYPE_WASM_VM ++ "@" ++ sc.metadata.to_hex)
           chainID := chain
           version := ver },
         { sc with address := compute_address owner.pubkey owner.nonce }) ∧
    bech32M zeroAddressBytes ≠ bech32M (compute_address owner.pubkey owner.nonce) :=
  ⟨deploy_ok sc owner arguments parts g lim v chain ver hargs,
    bech32M_zero_ne_derived owner.pubkey owner.nonce⟩

/-- C8 witness: the theorem applied to a concrete contract, owner and empty
argument list. -/
theorem deploy_nonce_and_receiver_witness :
    ([] : List Arg).mapM prepare_argument = Except.ok ([] : List String) ∧
    (deploy ⟨zeroAddressBytes, "AABB", ⟨true, false⟩⟩ ⟨zeroAddressBytes, 7⟩ [] (some 5) 10 0
        "T" 1 =
      Except.ok
        ({ nonce := (⟨zeroAddressBytes, 7⟩ : Account).nonce
           value := natToDecStr 0
           sender := bech32M (⟨zeroAddressBytes, 7⟩ : Account).pubkey
           receiver := bech32M zeroAddressBytes
           gasPrice := 5
           gasLimit := 10
           data := ([] : List String).foldl (fun acc p => acc ++ "@" ++ p)
             ("AABB" ++ "@" ++ VM_TYPE_WASM_VM ++ "@" ++
               (⟨true, false⟩ : CodeMetadata).to_hex)
           chainID := "T"
           version := 1 },
         { address := compute_address zeroAddressBytes 7, bytecode := "AABB",
           metadata := ⟨true, false⟩ }) ∧
    bech32M zeroAddressBytes ≠ bech32M (compute_address zeroAddressBytes 7)) :=
  ⟨rfl, deploy_nonce_and_receiver ⟨zeroAddressBytes, "AABB", ⟨true, false⟩⟩
    ⟨zeroAddressBytes, 7⟩ [] [] 5 10 0 "T" 1 rfl⟩

/-- C10 counterexample: `deploy` called with the falsy gas price `None` does
not place the given gas price on a transaction — `int(None)` raises
`TypeError` and no transaction is produced at all (the same happens in
`execute`), so "deploy and execute place the given gas_price on the
transaction unchanged" fails for the falsy value `None`. -/
theorem deploy_gas_none_type_error :
    deploy ⟨zeroAddressBytes, "AABB", ⟨true, false⟩⟩ ⟨zeroAddressBytes, 7⟩ [] none 10 0 "T" 1 =
      Except.error PyErr.typeError ∧
    execute ⟨zeroAddressBytes, "AABB", ⟨true, false⟩⟩ ⟨zeroAddressBytes, 7⟩ "f" [] none 10 0
        "T" 1 =
      Except.error PyErr.typeError := by
  refine ⟨rfl, rfl⟩

/-- C10 (amended): `upgrade` silently replaces a falsy gas price (`None` or
`0`) by the configured default, while `deploy` and `execute` never
substitute a default: an integer gas price (including `0`) is placed on the
transaction unchanged and `None` raises `TypeError`; apart from `gasPrice`
and the `data` payload, `upgrade` assembles the transaction fields exactly
as `execute` does. -/
theorem upgrade_gas_price_behaviour (sc : SmartContract) (acct : Account) (f : String)
    (arguments : List Arg) (parts : List String) (g lim v : Nat) (chain : String) (ver : Nat)
    (hargs : arguments.mapM prepare_argument = Except.ok parts) (hg : g ≠ 0) :
    exceptGasPrice (upgrade sc acct arguments none lim v chain ver) =
      some DEFAULT_GAS_PRICE ∧
    exceptGasPrice (upgrade sc acct arguments (some 0) lim v chain ver) =
      some DEFAULT_GAS_PRICE ∧
    exceptGasPrice (upgrade sc acct arguments (some g) lim v chain ver) = some g ∧
    exceptGasPrice (execute sc acct f arguments (some 0) lim v chain ver) = some 0 ∧
    (deploy sc acct arguments (some 0) lim v chain ver).map (fun p => p.1.gasPrice) =
      Except.ok 0 ∧
    execute sc acct f arguments none lim v chain ver = Except.error PyErr.typeError ∧
    deploy sc acct arguments none lim v chain ver = Except.error PyErr.typeError ∧
    exceptFieldsNoData (upgrade sc acct arguments (some g) lim v chain ver) =
      exceptFieldsNoData (execute sc acct f arguments (some g) lim v chain ver) := by
  have hu0 := upgrade_ok sc acct arguments parts none lim v chain ver hargs
  have hu1 := upgrade_ok sc acct arguments parts (some 0) lim v chain ver hargs
  have hu2 := upgrade_ok sc acct arguments parts (some g) lim v chain ver hargs
  have he0 := execute_ok sc acct f arguments parts 0 lim v chain ver hargs
  have he2 := execute_ok sc acct f arguments parts g lim v chain ver hargs
  have hd0 := deploy_ok sc acct arguments parts 0 lim v chain ver hargs
  refine ⟨?_, ?_, ?_, ?_, ?_, ?_, ?_, ?_⟩
  · rw [hu0]; rfl
  · rw [hu1]; rfl
  · rw [hu2]
    show some (pyOrDefault (some g) DEFAULT_GAS_PRICE) = some g
    rw [pyOrDefault_some_ne_zero g DEFAULT_GAS_PRICE hg]
  · rw [he0]; rfl
  · rw [hd0]; rfl
  · rfl
  · rfl
  · rw [hu2, he2]
    show some (acct.nonce, natToDecStr v, bech32M acct.pubkey, bech32M sc.address,
        pyOrDefault (some g) DEFAULT_GAS_PRICE, lim, chain, ver) = _
    rw [pyOrDefault_some_ne_zero g DEFAULT_GAS_PRICE hg]
    rfl

/-- C10 witness: the amended theorem applied to a concrete contract, signer
and a non-zero gas price. -/
theorem upgrade_gas_price_behaviour_witness :
    ([] : List Arg).mapM prepare_argument = Except.ok ([] : List String) ∧ (5 : Nat) ≠ 0 ∧
    (exceptGasPrice
        (upgrade ⟨zeroAddressBytes, "AABB", ⟨true, false⟩⟩ ⟨zeroAddressBytes, 7⟩ [] none 10 0
          "T" 1) = some DEFAULT_GAS_PRICE ∧
    exceptGasPrice
        (upgrade ⟨zeroAddressBytes, "AABB", ⟨true, false⟩⟩ ⟨zeroAddressBytes, 7⟩ [] (some 0)
          10 0 "T" 1) = some DEFAULT_GAS_PRICE ∧
    exceptGasPrice
        (upgrade ⟨zeroAddressBytes, "AABB", ⟨true, false⟩⟩ ⟨zeroAddressBytes, 7⟩ [] (some 5)
          10 0 "T" 1) = some 5 ∧
    exceptGasPrice
        (execute ⟨zeroAddressBytes, "AABB", ⟨true, false⟩⟩ ⟨zeroAddressBytes, 7⟩ "f" []
          (some 0) 10 0 "T" 1) = some 0 ∧
    (deploy ⟨zeroAddressBytes, "AABB", ⟨true, false⟩⟩ ⟨zeroAddressBytes, 7⟩ [] (some 0) 10 0
        "T" 1).map (fun p => p.1.gasPrice) = Except.ok 0 ∧
    execute ⟨zeroAddressBytes, "AABB", ⟨true, false⟩⟩ ⟨zeroAddressBytes, 7⟩ "f" [] none 10 0
        "T" 1 = Except.error PyErr.typeError ∧
    deploy ⟨zeroAddressBytes, "AABB", ⟨true, false⟩⟩ ⟨zeroAddressBytes, 7⟩ [] none 10 0 "T" 1 =
      Except.error PyErr.typeError ∧
    exceptFieldsNoData
        (upgrade ⟨zeroAddressBytes, "AABB", ⟨true, false⟩⟩ ⟨zeroAddressBytes, 7⟩ [] (some 5)
          10 0 "T" 1) =
      exceptFieldsNoData
        (execute ⟨zeroAddressBytes, "AABB", ⟨true, false⟩⟩ ⟨zeroAddressBytes, 7⟩ "f" []
          (some 5) 10 0 "T" 1)) :=
  ⟨rfl, by decide,
    upgrade_gas_price_behaviour ⟨zeroAddressBytes, "AABB", ⟨true, false⟩⟩
      ⟨zeroAddressBytes, 7⟩ "f" [] [] 5 10 0 "T" 1 rfl (by decide)⟩

/-- C5 witness: the round-trip theorem applied to the concrete integer 255,
whose encoding is `"ff"`. -/
theorem decimal_argument_roundtrip_witness :
    prepare_argument (Arg.num (Int.ofNat 255)) =
      Except.ok (ensure_even_length (natToHexStr 255)) ∧
    hexCharsVal (ensure_even_length (natToHexStr 255)).data = 255 ∧
    (ensure_even_length (natToHexStr 255)).data.length % 2 = 0 :=
  decimal_argument_roundtrip 255

end Erdpy
